import Mathlib

/-!
Shallow embedding of the message-filtering utilities of this repository:
the timestamp range filter (created_date_filter_openai_messages.py), the
metadata equality filter and message client (metadata_filtering_openai_messages.py),
and the run-polling loop of the conversation driver (thread_demo.py).
Messages are JSON objects; only the fields the filters inspect are modelled.
-/

/-- A message as the filters see it: `created_at` is `message.get("created_at")`
(`none` models both an absent key and an explicit null), and `metadata` is the
string-keyed mapping `message.get("metadata", {})`, modelled as an association
list with the first binding of a key authoritative (Python dicts have unique
keys, so duplicates never arise from real input). -/
structure Message where
  created_at : Option Int
  metadata : List (String × String)
deriving Repr, DecidableEq

/-- The loop body condition of `filter_messages` in
created_date_filter_openai_messages.py as a predicate: the message has a
`created_at` and it lies inclusively between the two bounds. -/
def createdInRange (start_timestamp end_timestamp : Int) (m : Message) : Bool :=
  match m.created_at with
  | none => false
  | some created_at => decide (start_timestamp ≤ created_at ∧ created_at ≤ end_timestamp)

/-- Embedding of `filter_messages` (created_date_filter_openai_messages.py,
lines 34-53): walk the list, skip messages whose `created_at` is missing,
keep those with `start_timestamp <= created_at <= end_timestamp`. -/
def filter_messages : List Message → Int → Int → List Message
  | [], _, _ => []
  | message :: rest, start_timestamp, end_timestamp =>
    match message.created_at with
    | none => filter_messages rest start_timestamp end_timestamp
    | some created_at =>
      if start_timestamp ≤ created_at ∧ created_at ≤ end_timestamp then
        message :: filter_messages rest start_timestamp end_timestamp
      else
        filter_messages rest start_timestamp end_timestamp

/-- Embedding of `OpenAIMessageClient._matches_metadata_filters`
(metadata_filtering_openai_messages.py, lines 84-98): every `(key, value)`
pair of the filter mapping must occur in the message metadata with exactly
that value; a missing key or a differing value rejects the message. -/
def matches_metadata_filters (message_metadata : List (String × String)) :
    List (String × String) → Bool
  | [] => true
  | (key, value) :: rest =>
    match message_metadata.lookup key with
    | none => false
    | some v => if v = value then matches_metadata_filters message_metadata rest else false

/-- The metadata-filtering loop inside `OpenAIMessageClient.get_messages`
(metadata_filtering_openai_messages.py, lines 68-74): collect, in order, the
messages whose metadata matches all filters. -/
def metadataFilterLoop : List Message → List (String × String) → List Message
  | [], _ => []
  | message :: rest, filters =>
    if matches_metadata_filters message.metadata filters then
      message :: metadataFilterLoop rest filters
    else
      metadataFilterLoop rest filters

/-- The post-download filtering step of `OpenAIMessageClient.get_messages`:
`if metadata_filters:` is Python truthiness, so `None` and the empty mapping
both skip the filtering loop and return the messages unchanged. -/
def apply_metadata_filters (messages : List Message)
    (metadata_filters : Option (List (String × String))) : List Message :=
  match metadata_filters with
  | none => messages
  | some filters =>
    if filters.isEmpty then messages
    else metadataFilterLoop messages filters

/- Helper lemmas shared by several claims. -/

theorem filter_messages_eq_filter (messages : List Message) (s e : Int) :
    filter_messages messages s e = messages.filter (createdInRange s e) := by
  induction messages with
  | nil => rfl
  | cons m rest ih =>
    cases hca : m.created_at with
    | none => simp [filter_messages, hca, List.filter, createdInRange, ih]
    | some t =>
      by_cases hle : s ≤ t ∧ t ≤ e
      · simp [filter_messages, hca, List.filter, createdInRange, hle, ih]
      · simp [filter_messages, hca, List.filter, createdInRange, hle, ih]

theorem createdInRange_iff (s e : Int) (m : Message) :
    createdInRange s e m = true ↔ ∃ t, m.created_at = some t ∧ s ≤ t ∧ t ≤ e := by
  cases hca : m.created_at with
  | none => simp [createdInRange, hca]
  | some t => simp [createdInRange, hca]

theorem metadataFilterLoop_eq_filter (messages : List Message)
    (filters : List (String × String)) :
    metadataFilterLoop messages filters
      = messages.filter (fun m => matches_metadata_filters m.metadata filters) := by
  induction messages with
  | nil => rfl
  | cons m rest ih =>
    by_cases hm : matches_metadata_filters m.metadata filters
    · simp [metadataFilterLoop, hm, List.filter, ih]
    · simp [metadataFilterLoop, hm, List.filter, ih]

theorem matches_metadata_filters_iff (md : List (String × String)) :
    ∀ filters : List (String × String),
      matches_metadata_filters md filters = true
        ↔ ∀ kv ∈ filters, md.lookup kv.1 = some kv.2 := by
  intro filters
  induction filters with
  | nil => simp [matches_metadata_filters]
  | cons kv rest ih =>
    obtain ⟨key, value⟩ := kv
    cases hlk : md.lookup key with
    | none => simp [matches_metadata_filters, hlk]
    | some v =>
      by_cases hv : v = value
      · subst hv
        simp [matches_metadata_filters, hlk, ih]
      · simp [matches_metadata_filters, hlk, hv]

/-- C1: the timestamp filter returns exactly the subsequence, in original
relative order, of messages whose `created_at` is present and lies inclusively
between the bounds; in particular the spec's example list filtered with
start = 150, end = 300 keeps exactly the 200 and 300 messages. -/
theorem filter_messages_spec (messages : List Message) (s e : Int) :
    filter_messages messages s e = messages.filter (createdInRange s e)
    ∧ List.Sublist (filter_messages messages s e) messages
    ∧ (∀ m : Message, m ∈ filter_messages messages s e
        ↔ m ∈ messages ∧ ∃ t, m.created_at = some t ∧ s ≤ t ∧ t ≤ e)
    ∧ filter_messages
        [⟨some 100, []⟩, ⟨some 200, []⟩, ⟨some 300, []⟩] 150 300
      = [⟨some 200, []⟩, ⟨some 300, []⟩] := by
  refine ⟨filter_messages_eq_filter messages s e, ?_, ?_, by decide⟩
  · rw [filter_messages_eq_filter]
    exact List.filter_sublist messages
  · intro m
    rw [filter_messages_eq_filter, List.mem_filter, createdInRange_iff]

/-- C2: a message whose `created_at` is absent (or null) is never in the
output of the timestamp filter, for any bounds, and the filter is a total
function so no error is raised. -/
theorem filter_messages_skips_missing_created_at (messages : List Message)
    (s e : Int) (m : Message) (h : m.created_at = none) :
    m ∉ filter_messages messages s e := by
  rw [filter_messages_eq_filter, List.mem_filter]
  rintro ⟨-, hr⟩
  rw [createdInRange_iff] at hr
  obtain ⟨t, ht, -⟩ := hr
  rw [h] at ht
  exact Option.noConfusion ht

/-- C2 witness: a concrete message without `created_at` is excluded from a
concrete filtering run. -/
theorem filter_messages_skips_missing_created_at_witness :
    (⟨none, []⟩ : Message) ∉ filter_messages [⟨none, []⟩, ⟨some 5, []⟩] 0 10 :=
  filter_messages_skips_missing_created_at [⟨none, []⟩, ⟨some 5, []⟩] 0 10 ⟨none, []⟩ rfl

/-- C3: with a non-empty constraint mapping, the metadata filter keeps exactly
the messages whose metadata contains every constraint key with exactly the
required value, in original order; the spec's example keeps only the message
carrying the matching user_email entry. -/
theorem metadata_filter_spec (messages : List Message) (f : String × String)
    (rest : List (String × String)) :
    apply_metadata_filters messages (some (f :: rest))
      = messages.filter (fun m => matches_metadata_filters m.metadata (f :: rest))
    ∧ (∀ m : Message,
        m ∈ apply_metadata_filters messages (some (f :: rest))
          ↔ m ∈ messages ∧ ∀ kv ∈ f :: rest, m.metadata.lookup kv.1 = some kv.2)
    ∧ apply_metadata_filters
        [⟨none, [("user_email", "a@b.com")]⟩, ⟨none, []⟩]
        (some [("user_email", "a@b.com")])
      = [⟨none, [("user_email", "a@b.com")]⟩] := by
  refine ⟨?_, ?_, by decide⟩
  · simp [apply_metadata_filters, metadataFilterLoop_eq_filter]
  · intro m
    simp [apply_metadata_filters, metadataFilterLoop_eq_filter, List.mem_filter,
      matches_metadata_filters_iff]

/-- C4: the empty constraint mapping (and the absent one, both falsy in
Python) leaves the message list untouched, in the same order. -/
theorem metadata_filter_empty_identity (messages : List Message) :
    apply_metadata_filters messages (some []) = messages
    ∧ apply_metadata_filters messages none = messages := by
  constructor <;> rfl

/-- C5: the metadata filter is antitone in the constraint set: when every
constraint of F also belongs to Fp, the messages retained under Fp form a
sublist (hence a subset, of no greater length) of those retained under F. -/
theorem metadata_filter_monotone (messages : List Message)
    (F Fp : List (String × String)) (hsub : ∀ kv ∈ F, kv ∈ Fp) :
    List.Sublist (apply_metadata_filters messages (some Fp))
        (apply_metadata_filters messages (some F))
    ∧ (∀ m, m ∈ apply_metadata_filters messages (some Fp)
        → m ∈ apply_metadata_filters messages (some F))
    ∧ (apply_metadata_filters messages (some Fp)).length
        ≤ (apply_metadata_filters messages (some F)).length := by
  have hsubl : List.Sublist (apply_metadata_filters messages (some Fp))
      (apply_metadata_filters messages (some F)) := by
    cases F with
    | nil =>
      cases Fp with
      | nil => exact List.Sublist.refl _
      | cons g grest =>
        simp only [apply_metadata_filters, List.isEmpty_cons, List.isEmpty_nil,
          if_true, if_false, Bool.false_eq_true, metadataFilterLoop_eq_filter]
        exact List.filter_sublist messages
    | cons f frest =>
      have hFp : ¬Fp.isEmpty = true := by
        cases Fp with
        | nil => exact absurd (hsub f (by simp)) (by simp)
        | cons g grest => simp
      simp only [apply_metadata_filters, List.isEmpty_cons, Bool.false_eq_true,
        if_false, hFp, metadataFilterLoop_eq_filter]
      refine List.monotone_filter_right messages ?_
      intro m hm
      rw [matches_metadata_filters_iff] at hm ⊢
      exact fun kv hkv => hm kv (hsub kv hkv)
  exact ⟨hsubl, fun m hm => hsubl.subset hm, hsubl.length_le⟩

/-- C5 witness: adding the constraint b=2 to a=1 on concrete messages yields a
sublist of the a=1 result, of no greater length. -/
theorem metadata_filter_monotone_witness :
    List.Sublist
        (apply_metadata_filters [⟨none, [("a", "1"), ("b", "2")]⟩, ⟨none, [("a", "1")]⟩]
          (some [("a", "1"), ("b", "2")]))
        (apply_metadata_filters [⟨none, [("a", "1"), ("b", "2")]⟩, ⟨none, [("a", "1")]⟩]
          (some [("a", "1")]))
    ∧ (apply_metadata_filters [⟨none, [("a", "1"), ("b", "2")]⟩, ⟨none, [("a", "1")]⟩]
          (some [("a", "1"), ("b", "2")])).length
        ≤ (apply_metadata_filters [⟨none, [("a", "1"), ("b", "2")]⟩, ⟨none, [("a", "1")]⟩]
          (some [("a", "1")])).length :=
  have h := metadata_filter_monotone
    [⟨none, [("a", "1"), ("b", "2")]⟩, ⟨none, [("a", "1")]⟩]
    [("a", "1")] [("a", "1"), ("b", "2")] (by decide)
  ⟨h.1, h.2.2⟩

/-- C6 counterexample: on the one-element list whose message lacks
`created_at`, every timestamp present in the list (vacuously) lies within the
bounds [0, 0], yet the timestamp filter does not return the original list —
it drops the message, so bound-covering-all-time filtering is not the
identity on arbitrary message lists. -/
theorem roundtrip_counterexample :
    (∀ m ∈ [(⟨none, []⟩ : Message)], ∀ t : Int,
        m.created_at = some t → (0 : Int) ≤ t ∧ t ≤ 0)
    ∧ filter_messages [(⟨none, []⟩ : Message)] 0 0 ≠ [(⟨none, []⟩ : Message)] := by
  constructor
  · intro m hm t ht
    rw [List.mem_singleton] at hm
    subst hm
    exact Option.noConfusion ht
  · decide

/-- C6 amended: filtering with an empty (or absent) metadata constraint
mapping returns the original sequence; and whenever every message of the list
has a `created_at` lying inclusively within the bounds, the timestamp filter
also returns the original sequence in its original order. -/
theorem roundtrip_amended (messages : List Message) (s e : Int)
    (hall : messages.all (createdInRange s e) = true) :
    apply_metadata_filters messages (some []) = messages
    ∧ apply_metadata_filters messages none = messages
    ∧ filter_messages messages s e = messages := by
  refine ⟨rfl, rfl, ?_⟩
  rw [filter_messages_eq_filter]
  rw [List.all_eq_true] at hall
  exact List.filter_eq_self.mpr hall

/-- C6 amended witness: a concrete list whose timestamps all lie within the
bounds passes through both filters unchanged. -/
theorem roundtrip_amended_witness :
    apply_metadata_filters [(⟨some 5, [("k", "v")]⟩ : Message)] (some [])
        = [(⟨some 5, [("k", "v")]⟩ : Message)]
    ∧ filter_messages [(⟨some 5, [("k", "v")]⟩ : Message)] 0 10
        = [(⟨some 5, [("k", "v")]⟩ : Message)] :=
  have h := roundtrip_amended [(⟨some 5, [("k", "v")]⟩ : Message)] 0 10 (by decide)
  ⟨h.1, h.2.2⟩

/- Model of the pieces of the Python standard library that parse_timestamp
(created_date_filter_openai_messages.py, lines 21-32) relies on. -/

/-- Digit accumulator for the model of Python int(str): consumes ASCII digits,
allowing a single underscore only between two digits, as CPython does. -/
def pyDigitsGo : List Char → Nat → Option Nat
  | [], acc => some acc
  | '_' :: c :: rest, acc =>
    if c.isDigit then pyDigitsGo rest (acc * 10 + (c.toNat - 48)) else none
  | ['_'], _ => none
  | c :: rest, acc =>
    if c.isDigit then pyDigitsGo rest (acc * 10 + (c.toNat - 48)) else none

/-- A non-empty ASCII digit run, with CPython's single-underscore-between-digits
grouping rule. -/
def pyDigits : List Char → Option Nat
  | [] => none
  | c :: rest => if c.isDigit then pyDigitsGo rest (c.toNat - 48) else none

/-- Strip leading and trailing ASCII whitespace, as int(str) does before
parsing. -/
def stripWS (cs : List Char) : List Char :=
  ((cs.dropWhile Char.isWhitespace).reverse.dropWhile Char.isWhitespace).reverse

/-- Model of Python int(str) restricted to ASCII decimal digits: optional
surrounding whitespace, an optional sign, then a digit run (CPython would also
accept non-ASCII decimal digits; those never collide with the ISO branch and
are outside this model). Returns none where int() raises ValueError. -/
def pyIntOfString (s : String) : Option Int :=
  match stripWS s.toList with
  | '+' :: rest => (pyDigits rest).map Int.ofNat
  | '-' :: rest => (pyDigits rest).map (fun n => -(n : Int))
  | cs => (pyDigits cs).map Int.ofNat

/-- The normalization step timestamp_str.replace('Z', '+00:00') of
parse_timestamp: Python str.replace with a one-character needle substitutes
every occurrence, so each 'Z' anywhere in the string becomes "+00:00". -/
def zNormalize : List Char → List Char
  | [] => []
  | c :: rest =>
    if c = 'Z' then '+' :: '0' :: '0' :: ':' :: '0' :: '0' :: zNormalize rest
    else c :: zNormalize rest

/-- A parsed datetime: calendar fields plus an optional fixed UTC offset in
minutes (none models a naive datetime). -/
structure PyDateTime where
  year : Nat
  month : Nat
  day : Nat
  hour : Nat
  minute : Nat
  second : Nat
  tzOffsetMinutes : Option Int
deriving Repr, DecidableEq

/-- Gregorian leap-year rule, as datetime uses. -/
def isLeapYear (y : Nat) : Bool :=
  (y % 4 == 0 && y % 100 != 0) || y % 400 == 0

/-- Days in a month of the proleptic Gregorian calendar. -/
def daysInMonth (y m : Nat) : Nat :=
  if m = 2 then (if isLeapYear y then 29 else 28)
  else if m = 4 ∨ m = 6 ∨ m = 9 ∨ m = 11 then 30
  else 31

/-- Two ASCII digit characters as a number, none if either is not a digit. -/
def digits2 (a b : Char) : Option Nat :=
  if a.isDigit ∧ b.isDigit then some ((a.toNat - 48) * 10 + (b.toNat - 48))
  else none

/-- Four ASCII digit characters as a number, none if any is not a digit. -/
def digits4 (a b c d : Char) : Option Nat :=
  if a.isDigit ∧ b.isDigit ∧ c.isDigit ∧ d.isDigit then
    some ((a.toNat - 48) * 1000 + (b.toNat - 48) * 100 + (c.toNat - 48) * 10 + (d.toNat - 48))
  else none

/-- Days since 1970-01-01 of a Gregorian date with 1 <= y <= 9999 (the
isoformat year range), via the standard civil-date counting identities. -/
def daysFromCivil (y m d : Nat) : Int :=
  let yy := if m ≤ 2 then y - 1 else y
  let era := yy / 400
  let yoe := yy % 400
  let mp := (m + 9) % 12
  let doy := (153 * mp + 2) / 5 + d - 1
  let doe := yoe * 365 + yoe / 4 - yoe / 100 + doy
  (era * 146097 + doe : Int) - 719468

/-- The time-of-day (and optional offset) tail of an isoformat string, after
the date and the separator character: HH:MM:SS with an optional +HH:MM or
-HH:MM suffix. Field ranges are validated as datetime does. -/
def parseTimePart (y mo dy : Nat) : List Char → Option PyDateTime
  | [h1, h2, ':', n1, n2, ':', s1, s2] => do
    let h ← digits2 h1 h2
    let n ← digits2 n1 n2
    let s ← digits2 s1 s2
    if h ≤ 23 ∧ n ≤ 59 ∧ s ≤ 59 then some ⟨y, mo, dy, h, n, s, none⟩ else none
  | [h1, h2, ':', n1, n2, ':', s1, s2, sg, o1, o2, ':', p1, p2] => do
    let h ← digits2 h1 h2
    let n ← digits2 n1 n2
    let s ← digits2 s1 s2
    let oh ← digits2 o1 o2
    let om ← digits2 p1 p2
    let sign : Int ← if sg = '+' then some 1 else if sg = '-' then some (-1) else none
    if h ≤ 23 ∧ n ≤ 59 ∧ s ≤ 59 ∧ oh ≤ 23 ∧ om ≤ 59 then
      some ⟨y, mo, dy, h, n, s, some (sign * (oh * 60 + om))⟩
    else none
  | _ => none

/-- Model of datetime.fromisoformat restricted to the shapes this repository
exercises: YYYY-MM-DD, optionally followed by one separator character and
HH:MM:SS with an optional +HH:MM or -HH:MM offset (CPython before 3.11 also
accepts shortened time and fractional-second forms; strings outside this
subset are simply not covered by the model). Returns none where the library
raises ValueError. -/
def fromisoformat (cs : List Char) : Option PyDateTime :=
  match cs with
  | y1 :: y2 :: y3 :: y4 :: '-' :: m1 :: m2 :: '-' :: d1 :: d2 :: rest => do
    let y ← digits4 y1 y2 y3 y4
    let mo ← digits2 m1 m2
    let dy ← digits2 d1 d2
    if 1 ≤ y ∧ 1 ≤ mo ∧ mo ≤ 12 ∧ 1 ≤ dy ∧ dy ≤ daysInMonth y mo then
      match rest with
      | [] => some ⟨y, mo, dy, 0, 0, 0, none⟩
      | _sep :: timeRest => parseTimePart y mo dy timeRest
    else none
  | _ => none

/-- Model of datetime.timestamp() truncated to whole seconds, as
int(dt.timestamp()) computes: an aware datetime is shifted by its own offset;
a naive one is interpreted in the local timezone, modelled here as the fixed
offset localOffsetMinutes supplied by the environment. -/
def pyTimestamp (localOffsetMinutes : Int) (dt : PyDateTime) : Int :=
  let base := daysFromCivil dt.year dt.month dt.day * 86400
    + dt.hour * 3600 + dt.minute * 60 + dt.second
  match dt.tzOffsetMinutes with
  | some off => base - off * 60
  | none => base - localOffsetMinutes * 60

/-- Embedding of parse_timestamp (created_date_filter_openai_messages.py,
lines 21-32): try int(timestamp_str) first and return it on success;
otherwise replace every 'Z' with "+00:00", parse as isoformat and return the
epoch seconds; a string rejected by both raises ValueError, modelled as the
error branch. localOffsetMinutes is the environment's local UTC offset, used
only for naive datetimes. -/
def parse_timestamp (localOffsetMinutes : Int) (timestamp_str : String) :
    Except String Int :=
  match pyIntOfString timestamp_str with
  | some n => Except.ok n
  | none =>
    match fromisoformat (zNormalize timestamp_str.toList) with
    | some dt => Except.ok (pyTimestamp localOffsetMinutes dt)
    | none => Except.error "ValueError: invalid isoformat string"

/-- The bound-parsing phase of main() in
created_date_filter_openai_messages.py: both bounds are parsed outside any
try block, so the first ValueError propagates and terminates the script,
modelled by Except's error propagation. -/
def main_parse_bounds (localOffsetMinutes : Int) (startArg endArg : String) :
    Except String (Int × Int) := do
  let s ← parse_timestamp localOffsetMinutes startArg
  let e ← parse_timestamp localOffsetMinutes endArg
  return (s, e)

/-- C7: parse_timestamp returns the integer value whenever the string parses
as a decimal integer; otherwise it normalizes each literal 'Z' to the
explicit UTC offset "+00:00" (on well-formed input the 'Z' occurs only as a
suffix, and the substitution is exactly suffix replacement), parses the
result as ISO-8601 and returns the Unix epoch seconds; a string accepted by
neither route yields a ValueError which main() does not catch, so it
propagates and terminates the script. Concrete checks reproduce the usage
header of the file: both bound forms of April 2023 agree. -/
theorem parse_timestamp_spec (loc : Int) (s : String) :
    (∀ n : Int, pyIntOfString s = some n → parse_timestamp loc s = Except.ok n)
    ∧ (pyIntOfString s = none →
        (∀ dt : PyDateTime, fromisoformat (zNormalize s.toList) = some dt →
          parse_timestamp loc s = Except.ok (pyTimestamp loc dt))
        ∧ (fromisoformat (zNormalize s.toList) = none →
          parse_timestamp loc s = Except.error "ValueError: invalid isoformat string"))
    ∧ (∀ msg endArg, parse_timestamp loc s = Except.error msg →
        main_parse_bounds loc s endArg = Except.error msg)
    ∧ (∀ l : List Char, 'Z' ∉ l →
        zNormalize (l ++ ['Z']) = l ++ ['+', '0', '0', ':', '0', '0'])
    ∧ parse_timestamp loc "1680307200" = Except.ok 1680307200
    ∧ parse_timestamp loc "2023-04-01T00:00:00Z" = Except.ok 1680307200
    ∧ parse_timestamp loc "2023-04-30T23:59:59Z" = Except.ok 1682899199
    ∧ parse_timestamp loc "not-a-timestamp"
        = Except.error "ValueError: invalid isoformat string" := by
  refine ⟨?_, ?_, ?_, ?_, rfl, rfl, rfl, rfl⟩
  · intro n hn
    simp [parse_timestamp, hn]
  · intro hnone
    refine ⟨fun dt hdt => ?_, fun hiso => ?_⟩
    · simp only [String.toList] at hdt
      simp [parse_timestamp, hnone, hdt]
    · simp only [String.toList] at hiso
      simp [parse_timestamp, hnone, hiso]
  · intro msg endArg herr
    simp [main_parse_bounds, herr, Bind.bind, Except.bind]
  · intro l hl
    induction l with
    | nil => rfl
    | cons c rest ih =>
      have hc : c ≠ 'Z' := fun h => hl (h ▸ List.mem_cons_self c _)
      have hrest : 'Z' ∉ rest := fun h => hl (List.mem_cons_of_mem c h)
      simp [zNormalize, hc, ih hrest]

/-- C7 witness: concrete runs of every branch — integer parse, ISO parse
after Z-normalization, and a malformed string propagating its ValueError
through the bound-parsing phase of main(). -/
theorem parse_timestamp_spec_witness :
    parse_timestamp 0 "1680307200" = Except.ok 1680307200
    ∧ parse_timestamp 0 "2023-04-01T00:00:00Z" = Except.ok 1680307200
    ∧ main_parse_bounds 0 "not-a-timestamp" "1680307200"
        = Except.error "ValueError: invalid isoformat string"
    ∧ zNormalize ("2023-04-01T00:00:00".toList ++ ['Z'])
        = "2023-04-01T00:00:00".toList ++ ['+', '0', '0', ':', '0', '0'] :=
  have h := parse_timestamp_spec 0 "not-a-timestamp"
  have hok := parse_timestamp_spec 0 "1680307200"
  have hiso := parse_timestamp_spec 0 "2023-04-01T00:00:00Z"
  ⟨hok.1 1680307200 (by decide),
   (hiso.2.1 (by decide)).1 ⟨2023, 4, 1, 0, 0, 0, some 0⟩ (by decide),
   h.2.2.1 "ValueError: invalid isoformat string" "1680307200"
     ((h.2.1 (by decide)).2 (by decide)),
   h.2.2.2.1 "2023-04-01T00:00:00".toList (by decide)⟩

/- Embedding of the network-facing parts of OpenAIMessageClient.get_messages
(metadata_filtering_openai_messages.py, lines 52-82) and of the run-polling
loop of thread_demo.py (lines 40-53). -/

/-- The limit entry of the request params dict of get_messages:
min(100, max(1, limit)). -/
def requestLimitParam (limit : Int) : Int :=
  min 100 (max 1 limit)

/-- Outcome of the HTTP GET inside get_messages, up to and including
raise_for_status and JSON decoding: either the decoded data list, or a
requests.RequestException carrying its message and, when the exception has a
truthy response attribute, that response's status code and body. -/
inductive HttpOutcome where
  | success (messages : List Message)
  | requestError (errMsg : String) (response : Option (Nat × String))
deriving Repr, DecidableEq

/-- Embedding of the try/except body of get_messages: on success the metadata
filter is applied and nothing is printed; on a RequestException the handler
prints the error message and, when a truthy response is attached, its status
and body, then returns the empty list. The second component collects the
printed lines in order. -/
def get_messages (outcome : HttpOutcome)
    (metadata_filters : Option (List (String × String))) :
    List Message × List String :=
  match outcome with
  | .success messages => (apply_metadata_filters messages metadata_filters, [])
  | .requestError errMsg response =>
    ([], ("Error retrieving messages: " ++ errMsg) ::
      (match response with
       | some (status, body) =>
         ["Response status: " ++ toString status, "Response body: " ++ body]
       | none => []))

/-- C8: every RequestException raised during the HTTP request is caught: the
call returns the empty list instead of propagating, the exception message is
printed, and when a response is attached its status code and body are printed
too. -/
theorem get_messages_error_spec (errMsg : String)
    (response : Option (Nat × String))
    (metadata_filters : Option (List (String × String))) :
    (get_messages (.requestError errMsg response) metadata_filters).1 = []
    ∧ ("Error retrieving messages: " ++ errMsg)
        ∈ (get_messages (.requestError errMsg response) metadata_filters).2
    ∧ (∀ status body, response = some (status, body) →
        ("Response status: " ++ toString status)
            ∈ (get_messages (.requestError errMsg response) metadata_filters).2
          ∧ ("Response body: " ++ body)
            ∈ (get_messages (.requestError errMsg response) metadata_filters).2) := by
  refine ⟨rfl, List.mem_cons_self _ _, ?_⟩
  intro status body hresp
  subst hresp
  exact ⟨by simp [get_messages], by simp [get_messages]⟩

/-- C8 witness: a concrete 500 error yields the empty list and the three
printed lines. -/
theorem get_messages_error_spec_witness :
    (get_messages (.requestError "boom" (some (500, "oops"))) none).1 = []
    ∧ ("Response status: " ++ toString 500)
        ∈ (get_messages (.requestError "boom" (some (500, "oops"))) none).2 :=
  have h := get_messages_error_spec "boom" (some (500, "oops")) none
  ⟨h.1, (h.2.2 500 "oops" rfl).1⟩

/-- Outcome of the polling loop: the run object is reduced to its status
string; success carries the status of the returned run, raised carries the
message of the raised Exception. -/
inductive PollOutcome where
  | success (status : String)
  | raised (msg : String)
deriving Repr, DecidableEq

/-- The fixed sleep interval, in seconds, between two polls of
wait_for_run_completion (thread_demo.py line 53). -/
def poll_interval_seconds : Nat := 2

/-- Embedding of wait_for_run_completion (thread_demo.py, lines 40-53) over
the finite trace of statuses observed by successive retrieve calls: return
the run on "completed", raise on "failed", "cancelled" or "expired" with the
status embedded in the message, and otherwise sleep and poll again; none
models a trace exhausted while still polling. -/
def wait_for_run_completion : List String → Option PollOutcome
  | [] => none
  | status :: rest =>
    if status = "completed" then some (.success status)
    else if status = "failed" ∨ status = "cancelled" ∨ status = "expired" then
      some (.raised ("Run ended with status: " ++ status))
    else wait_for_run_completion rest

/-- C9: the polling loop never returns successfully on a status other than
"completed"; it returns the run exactly when "completed" is observed, raises
with the observed status embedded in the message exactly on "failed",
"cancelled" or "expired", and on any other status keeps polling after the
fixed 2-second sleep. -/
theorem wait_for_run_completion_spec (trace : List String) (status : String) :
    (∀ st, wait_for_run_completion trace = some (.success st) → st = "completed")
    ∧ wait_for_run_completion ("completed" :: trace) = some (.success "completed")
    ∧ (status = "failed" ∨ status = "cancelled" ∨ status = "expired" →
        wait_for_run_completion (status :: trace)
          = some (.raised ("Run ended with status: " ++ status)))
    ∧ (status ≠ "completed" → status ≠ "failed" → status ≠ "cancelled" →
        status ≠ "expired" →
        wait_for_run_completion (status :: trace) = wait_for_run_completion trace)
    ∧ poll_interval_seconds = 2 := by
  refine ⟨?_, ?_, ?_, ?_, rfl⟩
  · intro st
    induction trace with
    | nil => intro h; exact Option.noConfusion h
    | cons hd tl ih =>
      intro h
      by_cases hc : hd = "completed"
      · rw [wait_for_run_completion, if_pos hc] at h
        have := Option.some.inj h
        rw [← hc]
        cases this
        rfl
      · by_cases ht : hd = "failed" ∨ hd = "cancelled" ∨ hd = "expired"
        · rw [wait_for_run_completion, if_neg hc, if_pos ht] at h
          exact PollOutcome.noConfusion (Option.some.inj h)
        · rw [wait_for_run_completion, if_neg hc, if_neg ht] at h
          exact ih h
  · rw [wait_for_run_completion, if_pos rfl]
  · intro ht
    have hc : status ≠ "completed" := by
      rcases ht with h | h | h <;> rw [h] <;> decide
    rw [wait_for_run_completion, if_neg hc, if_pos ht]
  · intro h1 h2 h3 h4
    rw [wait_for_run_completion, if_neg h1, if_neg (by simp [h2, h3, h4])]

/-- C9 witness: a run that is queued, then in progress, then completed is
returned; a run that is queued and then fails raises with the status in the
message. -/
theorem wait_for_run_completion_spec_witness :
    wait_for_run_completion ["queued", "in_progress", "completed"]
        = some (.success "completed")
    ∧ wait_for_run_completion ["queued", "failed"]
        = some (.raised ("Run ended with status: " ++ "failed")) :=
  have hq := wait_for_run_completion_spec ["in_progress", "completed"] "queued"
  have hi := wait_for_run_completion_spec ["completed"] "in_progress"
  have hf := wait_for_run_completion_spec [] "failed"
  have hqf := wait_for_run_completion_spec ["failed"] "queued"
  ⟨by
    rw [hq.2.2.2.1 (by decide) (by decide) (by decide) (by decide),
      hi.2.2.2.1 (by decide) (by decide) (by decide) (by decide)]
    exact (wait_for_run_completion_spec [] "x").2.1,
   by
    rw [hqf.2.2.2.1 (by decide) (by decide) (by decide) (by decide)]
    exact hf.2.2.1 (Or.inl rfl)⟩

/-- C10: the limit sent in the request params of get_messages is clamped into
[1, 100]: values below 1 become 1, values above 100 become 100, and in-range
values pass through unchanged. -/
theorem limit_clamped (limit : Int) :
    1 ≤ requestLimitParam limit
    ∧ requestLimitParam limit ≤ 100
    ∧ (limit < 1 → requestLimitParam limit = 1)
    ∧ (100 < limit → requestLimitParam limit = 100)
    ∧ (1 ≤ limit → limit ≤ 100 → requestLimitParam limit = limit) := by
  unfold requestLimitParam
  omega

/-- C10 witness: concrete limits below, above and inside the range are
clamped to 1, 100 and passed through respectively. -/
theorem limit_clamped_witness :
    requestLimitParam (-5) = 1
    ∧ requestLimitParam 350 = 100
    ∧ requestLimitParam 50 = 50 :=
  ⟨(limit_clamped (-5)).2.2.1 (by decide),
   (limit_clamped 350).2.2.2.1 (by decide),
   (limit_clamped 50).2.2.2.2 (by decide) (by decide)⟩
